import Mathlib

/-!
Verification of the go-tart client library: a shallow embedding of the
process-execution, readiness-detection, argument-building and
result-decoding logic of the Go sources (main.go, run.go, mgmt.go),
together with theorems settling the specified properties.

Conventions of the embedding:
  - captured byte streams are modelled as `String` values;
  - machine integers of the Go code (the `int` fields of the JSON
    records) are modelled as `Int` with explicit 64-bit range checks
    where the decoder enforces them;
  - the external world of one subprocess (pipe creation, launch, stream
    contents, exit status) is a record of explicit outcomes, and the
    helpers are pure functions of that record;
  - fallible operations return `Except`.
-/

/-! ## String helpers modelling the Go standard library -/

/-- Model of a prefix test on character lists: `startsWithChars hay needle`
is true when `needle` is an initial segment of `hay`. -/
def startsWithChars : List Char → List Char → Bool
  | _, [] => true
  | [], _ :: _ => false
  | c :: cs, d :: ds => (c = d) && startsWithChars cs ds

/-- Model of substring search on character lists: `occursInChars needle hay`
is true when `needle` occurs contiguously inside `hay`. -/
def occursInChars (needle : List Char) : List Char → Bool
  | [] => needle.isEmpty
  | c :: cs => startsWithChars (c :: cs) needle || occursInChars needle cs

/-- Model of Go strings.Contains: true when `needle` occurs inside `hay`. -/
def strContains (hay needle : String) : Bool :=
  occursInChars needle.toList hay.toList

/-- Model of a Go whitespace test (the ASCII space classes trimmed by
strings.TrimSpace; the Unicode-only space classes are elided). -/
def isSpaceChar (c : Char) : Bool :=
  c = ' ' || c = '\t' || c = '\n' || c = '\r' || c = '\x0b' || c = '\x0c'

/-- Model of Go strings.TrimSpace: drop leading and trailing whitespace. -/
def trimSpace (s : String) : String :=
  ⟨((s.toList.dropWhile isSpaceChar).reverse.dropWhile isSpaceChar).reverse⟩

/-! ## Directory mounts (run.go): the DirMount record and the --dir token -/

/-- DirMount record of run.go (fields in source order: Name, Path,
ReadOnly, Sync, Tag). -/
structure DirMount where
  Name : String
  Path : String
  ReadOnly : Bool
  Sync : String
  Tag : String
deriving DecidableEq, Repr

/-- Serialization of one DirMount into the single `--dir` token, a direct
transcription of the string building of Run (run.go lines 86 to 107). -/
def dirMountArg (d : DirMount) : String :=
  let a := ""
  let a := if d.Name ≠ "" then a ++ (d.Name ++ ":") else a
  let a := a ++ d.Path
  if d.ReadOnly = true ∨ d.Tag ≠ "" then
    let a := a ++ ":"
    let a := if d.ReadOnly = true then
               (a ++ "ro") ++ (if d.Tag ≠ "" then "," else "")
             else a
    let a := if d.Tag ≠ "" then a ++ ("tag=" ++ d.Tag) else a
    if d.Sync ≠ "" then a ++ ("sync=" ++ d.Sync) else a
  else a

/-- Grammar-shaped restatement of the actual token format: name prefix
when the name is non-empty, then the path, then one trailing segment
opened by a colon whenever readOnly holds or a tag is present, holding
`ro`, a comma only between `ro` and a tag, the tag segment, and the sync
segment appended directly (with no separating comma) whenever the
trailing segment exists at all and sync is non-empty. -/
def dirMountToken (d : DirMount) : String :=
  (if d.Name = "" then "" else d.Name ++ ":")
    ++ d.Path
    ++ (if d.ReadOnly = true ∨ d.Tag ≠ "" then
          ":" ++ (if d.ReadOnly = true then "ro" else "")
              ++ (if d.ReadOnly = true ∧ d.Tag ≠ "" then "," else "")
              ++ (if d.Tag = "" then "" else "tag=" ++ d.Tag)
              ++ (if d.Sync = "" then "" else "sync=" ++ d.Sync)
        else "")

/-- C5 counterexample: a mount that is read-only with a sync mode but no
tag serializes with the sync segment glued on (`/p:rosync=virtiofs`),
not dropped: the claim that the sync segment is appended only when a tag
segment exists is false on the code. -/
theorem c5_counterexample :
    dirMountArg ⟨"", "/p", true, "virtiofs", ""⟩ = "/p:rosync=virtiofs" ∧
    dirMountArg ⟨"", "/p", true, "virtiofs", ""⟩ ≠ "/p:ro" := by
  constructor
  · rfl
  · decide

/-- C5 amended: the serialized token is `[name:]path` followed, whenever
readOnly holds or a tag is present, by a trailing segment
`:[ro][,][tag=TAG][sync=MODE]` in which the comma separates only `ro`
from a tag and the sync part is appended without a separator whenever
the trailing segment exists and sync is non-empty (so sync is dropped
exactly when readOnly is false and the tag is empty); the two concrete
examples of the claim hold as stated. -/
theorem c5_dir_token_amended (d : DirMount) :
    dirMountArg d = dirMountToken d ∧
    dirMountArg ⟨"shared", "/tmp/x", true, "", "t1"⟩ = "shared:/tmp/x:ro,tag=t1" ∧
    dirMountArg ⟨"", "/tmp/y", false, "", ""⟩ = "/tmp/y" := by
  refine ⟨?_, rfl, rfl⟩
  by_cases hN : d.Name = "" <;> by_cases hR : d.ReadOnly = true <;>
    by_cases hT : d.Tag = "" <;> by_cases hS : d.Sync = "" <;>
      simp [dirMountArg, dirMountToken, hN, hR, hT, hS,
        String.append_assoc, String.empty_append, String.append_empty]

/-! ## Environment resolver and process runner (main.go) -/

/-- Model of setTartHome (main.go lines 37 to 45): given the configured
directory and whether os.Stat reports it as missing, return either an
error or the optional TART_HOME environment overlay that the command
would receive (none means the child simply inherits the parent
environment). -/
def setTartHome (configDir : String) (statNotExist : Bool) :
    Except String (Option String) :=
  if configDir ≠ "" then
    if statNotExist = true then .error "config directory does not exist"
    else .ok (some ("TART_HOME=" ++ configDir))
  else .ok none

/-- Outcomes of the external world for one subprocess of the run helper:
whether each pipe could be created, whether the OS could start the
process, what each fully-drained stream yields (contents or a read
error), and the exit status observed by Wait. -/
structure ProcSpec where
  stdoutPipeErr : Option String
  stderrPipeErr : Option String
  startErr : Option String
  stdoutData : Except String String
  stderrData : Except String String
  exitCode : Nat
deriving Repr

/-- Classified errors of the run helper, one constructor per distinct
wrapped error of main.go lines 48 to 83. -/
inductive RunError where
  | stdoutPipeFailed (cause : String)
  | stderrPipeFailed (cause : String)
  | launchFailed (cause : String)
  | stdoutReadFailed (cause : String)
  | stderrReadFailed (cause : String)
  | commandFailed (exitCode : Nat) (capturedStderr : String)
deriving DecidableEq, Repr

/-- Model of the run helper body after the environment step (main.go
lines 52 to 82): create both pipes, start the command, drain stdout then
stderr, wait; a zero exit yields the captured stdout, a non-zero exit
yields an error carrying the captured stderr. -/
def runExec (p : ProcSpec) : Except RunError String :=
  match p.stdoutPipeErr with
  | some e => .error (.stdoutPipeFailed e)
  | none =>
  match p.stderrPipeErr with
  | some e => .error (.stderrPipeFailed e)
  | none =>
  match p.startErr with
  | some e => .error (.launchFailed e)
  | none =>
  match p.stdoutData with
  | .error e => .error (.stdoutReadFailed e)
  | .ok out =>
  match p.stderrData with
  | .error e => .error (.stderrReadFailed e)
  | .ok errText =>
    if p.exitCode = 0 then .ok out
    else .error (.commandFailed p.exitCode errText)

/-- Model of the whole run helper (main.go lines 48 to 83): the error
returned by setTartHome is discarded, so the effective environment
overlay is the one setTartHome installed on success and nothing on
failure, and execution proceeds regardless. The pair returned is the
environment overlay of the spawned command and the execution result. -/
def runGo (configDir : String) (statNotExist : Bool) (p : ProcSpec) :
    Option String × Except RunError String :=
  let overlay :=
    match setTartHome configDir statNotExist with
    | .ok o => o
    | .error _ => none
  (overlay, runExec p)

/-- C1: with both pipes created, the run helper returns the fully
captured stdout with no error on a zero exit status; on a non-zero exit
status it returns a command-failure error carrying the captured stderr
text; and when the process cannot be started at all it returns a launch
error that is distinct from every command-failure error and carries no
output. -/
theorem c1_run_exit_classification (p : ProcSpec)
    (hp1 : p.stdoutPipeErr = none) (hp2 : p.stderrPipeErr = none) :
    (∀ out err, p.startErr = none → p.stdoutData = .ok out →
      p.stderrData = .ok err →
      (p.exitCode = 0 → runExec p = .ok out) ∧
      (p.exitCode ≠ 0 →
        runExec p = .error (.commandFailed p.exitCode err))) ∧
    (∀ c, p.startErr = some c →
      runExec p = .error (.launchFailed c) ∧
      (∀ ec stderrText,
        (RunError.launchFailed c) ≠ RunError.commandFailed ec stderrText) ∧
      (∀ out, runExec p ≠ .ok out)) := by
  constructor
  · intro out err hs ho he
    constructor
    · intro hz
      simp [runExec, hp1, hp2, hs, ho, he, hz]
    · intro hnz
      simp [runExec, hp1, hp2, hs, ho, he, hnz]
  · intro c hs
    refine ⟨by simp [runExec, hp1, hp2, hs], fun ec s => by simp, ?_⟩
    intro out
    simp [runExec, hp1, hp2, hs]

/-- C1 witness: concrete evaluations of the three branches. -/
theorem c1_witness :
    runExec ⟨none, none, none, .ok "hello\n", .ok "", 0⟩ = .ok "hello\n" ∧
    runExec ⟨none, none, none, .ok "", .ok "boom", 1⟩ =
      .error (.commandFailed 1 "boom") ∧
    runExec ⟨none, none, some "no such file", .ok "", .ok "", 0⟩ =
      .error (.launchFailed "no such file") := by
  refine ⟨?_, ?_, ?_⟩
  · exact ((c1_run_exit_classification ⟨none, none, none, .ok "hello\n", .ok "", 0⟩
      rfl rfl).1 "hello\n" "" rfl rfl rfl).1 rfl
  · exact ((c1_run_exit_classification ⟨none, none, none, .ok "", .ok "boom", 1⟩
      rfl rfl).1 "" "boom" rfl rfl rfl).2 (by decide)
  · exact ((c1_run_exit_classification ⟨none, none, some "no such file", .ok "", .ok "", 0⟩
      rfl rfl).2 "no such file" rfl).1

/-- C10: when the configured directory is non-empty but os.Stat reports
it missing, setTartHome itself fails, yet the run helper ignores that
error: the spawned command gets no TART_HOME overlay (the child inherits
the parent environment unchanged) and execution proceeds exactly as for
an unconfigured instance, spawning the child whenever the OS allows. -/
theorem c10_set_tart_home_error_ignored (cfg : String) (p : ProcSpec)
    (hcfg : cfg ≠ "") (hp1 : p.stdoutPipeErr = none)
    (hp2 : p.stderrPipeErr = none) (hs : p.startErr = none) :
    setTartHome cfg true = .error "config directory does not exist" ∧
    (runGo cfg true p).1 = none ∧
    (runGo cfg true p).2 = runExec p ∧
    (∀ c, runExec p ≠ .error (.launchFailed c)) ∧
    (∀ c, runExec p ≠ .error (.stdoutPipeFailed c)) ∧
    (∀ c, runExec p ≠ .error (.stderrPipeFailed c)) := by
  refine ⟨by simp [setTartHome, hcfg], by simp [runGo, setTartHome, hcfg], rfl, ?_, ?_, ?_⟩ <;>
    intro c <;>
    simp [runExec, hp1, hp2, hs] <;>
    rcases hced : p.stdoutData with e | out <;>
      simp [hced] <;>
      rcases hcee : p.stderrData with e2 | err <;>
        simp [hcee] <;>
        by_cases hz : p.exitCode = 0 <;> simp [hz]

/-- C10 witness: a concrete missing config directory with a healthy
process: the overlay is none and the run still succeeds. -/
theorem c10_witness :
    runGo "/root/.tart" true ⟨none, none, none, .ok "out", .ok "", 0⟩ =
      (none, .ok "out") := by
  have h := c10_set_tart_home_error_ignored "/root/.tart"
    ⟨none, none, none, .ok "out", .ok "", 0⟩ (by decide) rfl rfl rfl
  have h2 := h.2.1
  have h3 := h.2.2.1
  have : runExec ⟨none, none, none, .ok "out", .ok "", 0⟩ = .ok "out" := rfl
  rw [Prod.ext_iff]
  exact ⟨h2, by rw [h3, this]⟩

/-! ## Streaming readiness watcher (run.go lines 144 to 163) -/

/-- Readiness marker test of Run: strings.Contains(line, "VM is up"). -/
def containsMarker (line : String) : Bool :=
  strContains line "VM is up"

/-- One observed read of the line-oriented stdout stream: a complete
line, end-of-file, or a non-EOF read error. -/
inductive ReadEvent where
  | line (s : String)
  | eof
  | fail (e : String)
deriving DecidableEq, Repr

/-- Outcome of the watch loop plus exit wait of Run: marker seen (return
success immediately, child left running), EOF then zero exit, EOF then
non-zero exit, non-EOF read error (fail without waiting), or the loop
still blocked reading an open stream that produced no further event. -/
inductive WatchOutcome where
  | ready
  | exitSuccess
  | exitFailure (code : Nat)
  | streamReadFailed (cause : String)
  | stillWaiting
deriving DecidableEq, Repr

/-- Success test on a watch outcome: Run returns nil exactly for the
marker case and the EOF-then-zero-exit case. -/
def WatchOutcome.isSuccess : WatchOutcome → Bool
  | .ready => true
  | .exitSuccess => true
  | _ => false

/-- Model of the read loop and subsequent Wait of Run (run.go lines 144
to 163) applied to the sequence of observed stream events and the exit
status the process would report: returns the outcome together with the
number of events consumed before returning. -/
def watch : List ReadEvent → Nat → WatchOutcome × Nat
  | [], _ => (.stillWaiting, 0)
  | .line s :: rest, ec =>
    if containsMarker s then (.ready, 1)
    else
      let r := watch rest ec
      (r.1, r.2 + 1)
  | .eof :: _, ec =>
    ((if ec = 0 then .exitSuccess else .exitFailure ec), 1)
  | .fail e :: _, _ => (.streamReadFailed e, 1)

/-- A prefix of stream events is benign when it consists only of
complete lines not containing the readiness marker. -/
def benignLines (pre : List ReadEvent) : Prop :=
  ∀ e ∈ pre, ∃ t, e = ReadEvent.line t ∧ containsMarker t = false

/-- Helper: the watch loop passes over a benign prefix, adding its
length to the consumed count and leaving the outcome to the tail. -/
theorem watch_benign_append (pre : List ReadEvent) (tail : List ReadEvent)
    (ec : Nat) (hpre : benignLines pre) :
    watch (pre ++ tail) ec =
      ((watch tail ec).1, pre.length + (watch tail ec).2) := by
  induction pre with
  | nil => simp
  | cons e pre ih =>
    obtain ⟨t, rfl, hm⟩ := hpre e (by simp)
    have ih2 := ih (fun e he => hpre e (by simp [he]))
    have hcons : watch (ReadEvent.line t :: (pre ++ tail)) ec
        = ((watch (pre ++ tail) ec).1, (watch (pre ++ tail) ec).2 + 1) := by
      simp [watch, hm]
    simp only [List.cons_append, hcons, ih2, List.length_cons, Prod.mk.injEq]
    exact ⟨trivial, by omega⟩

/-- C2: as soon as a line containing the readiness marker is read after
any benign prefix, Run returns success immediately, consuming only the
events up to and including that line, for every exit status (so without
waiting for process exit) and for every continuation of the stream (so
without waiting for stream closure, leaving the child running); in
particular the stream emitting booting then the marker line and then
staying open yields success right after the second line. -/
theorem c2_readiness_marker_immediate (pre : List ReadEvent) (s : String)
    (rest : List ReadEvent) (ec : Nat) (hpre : benignLines pre)
    (hs : containsMarker s = true) :
    watch (pre ++ ReadEvent.line s :: rest) ec =
      (WatchOutcome.ready, pre.length + 1) ∧
    watch (ReadEvent.line "booting...\n" :: ReadEvent.line "VM is up\n" :: rest)
      ec = (WatchOutcome.ready, 2) ∧
    WatchOutcome.ready.isSuccess = true := by
  refine ⟨?_, ?_, rfl⟩
  · rw [watch_benign_append pre (ReadEvent.line s :: rest) ec hpre]
    simp [watch, hs]
  · have hb : benignLines [ReadEvent.line "booting...\n"] := by
      intro e he
      simp at he
      exact ⟨"booting...\n", he, by decide⟩
    have := watch_benign_append [ReadEvent.line "booting...\n"]
      (ReadEvent.line "VM is up\n" :: rest) ec hb
    simp only [List.singleton_append] at this
    rw [this]
    simp [watch, show containsMarker "VM is up\n" = true from by decide]

/-- C2 witness: the concrete two-line stream of the claim, on an open
stream with one more pending line and a non-zero would-be exit status,
returns success after exactly two lines. -/
theorem c2_witness :
    watch [ReadEvent.line "booting...\n", ReadEvent.line "VM is up\n",
      ReadEvent.line "later\n"] 7 = (WatchOutcome.ready, 2) := by
  have h := c2_readiness_marker_immediate [ReadEvent.line "booting...\n"]
    "VM is up\n" [ReadEvent.line "later\n"] 7
    (by intro e he; simp at he; exact ⟨"booting...\n", he, by decide⟩)
    (by decide)
  simpa using h.2.1

/-- C3: after any benign prefix, end-of-file is not an error: the
watcher falls through to the exit wait and the outcome is success
exactly when the exit status is zero and a failure carrying the status
otherwise; whereas a non-EOF read error produces the stream-read
failure outcome immediately, for every exit status and continuation
(so without waiting for process exit), and that outcome is never a
success. -/
theorem c3_eof_falls_through_error_fails_fast (pre : List ReadEvent)
    (hpre : benignLines pre) :
    (∀ ec, watch (pre ++ [ReadEvent.eof]) ec =
      ((if ec = 0 then WatchOutcome.exitSuccess else WatchOutcome.exitFailure ec),
        pre.length + 1)) ∧
    (∀ ec, (watch (pre ++ [ReadEvent.eof]) ec).1.isSuccess = (ec == 0)) ∧
    (∀ e rest ec, watch (pre ++ ReadEvent.fail e :: rest) ec =
      (WatchOutcome.streamReadFailed e, pre.length + 1)) ∧
    (∀ e, (WatchOutcome.streamReadFailed e).isSuccess = false) := by
  refine ⟨?_, ?_, ?_, fun e => rfl⟩
  · intro ec
    rw [watch_benign_append pre [ReadEvent.eof] ec hpre]
    simp [watch]
  · intro ec
    rw [watch_benign_append pre [ReadEvent.eof] ec hpre]
    by_cases hz : ec = 0 <;> simp [watch, hz, WatchOutcome.isSuccess]
  · intro e rest ec
    rw [watch_benign_append pre (ReadEvent.fail e :: rest) ec hpre]
    simp [watch]

/-- C3 witness: concrete evaluations: EOF then exit 0 succeeds, EOF then
exit 2 fails with the status, and a mid-stream read error fails at once
even though the exit status would have been zero. -/
theorem c3_witness :
    watch [ReadEvent.line "booting...\n", ReadEvent.eof] 0 =
      (WatchOutcome.exitSuccess, 2) ∧
    watch [ReadEvent.line "booting...\n", ReadEvent.eof] 2 =
      (WatchOutcome.exitFailure 2, 2) ∧
    watch [ReadEvent.line "booting...\n", ReadEvent.fail "pipe broken",
      ReadEvent.eof] 0 = (WatchOutcome.streamReadFailed "pipe broken", 2) := by
  have hb : benignLines [ReadEvent.line "booting...\n"] := by
    intro e he
    simp at he
    exact ⟨"booting...\n", he, by decide⟩
  have h := c3_eof_falls_through_error_fails_fast
    [ReadEvent.line "booting...\n"] hb
  refine ⟨?_, ?_, ?_⟩
  · simpa using h.1 0
  · simpa using h.1 2
  · simpa using h.2.2.1 "pipe broken" [ReadEvent.eof] 0

/-! ## VM descriptors and the state lookup (mgmt.go) -/

/-- VMState record of mgmt.go (fields in source order). The Go int
fields are modelled as Int. -/
structure VMState where
  SizeOnDisk : Int
  Disk : Int
  Name : String
  Source : String
  Size : Int
  State : String
deriving DecidableEq, Repr

/-- Zero value of VMState, as produced by var ret VMState. -/
def zeroVM : VMState := ⟨0, 0, "", "", 0, ""⟩

/-- Model of the lookup loop of State (mgmt.go lines 303 to 316): the
first descriptor whose Name matches, else the zero value. -/
def stateOf (vms : List VMState) (name : String) : VMState :=
  match vms with
  | [] => zeroVM
  | v :: rest => if v.Name = name then v else stateOf rest name

/-- Model of State given the outcome of the List invocation: a List
failure is wrapped, otherwise the lookup result is returned with no
error even when no descriptor matches. -/
def StateGo (listRes : Except String (List VMState)) (name : String) :
    Except String VMState :=
  match listRes with
  | .error e => .error ("failed to get VM state: " ++ e)
  | .ok vms => .ok (stateOf vms name)

/-- Model of Running (mgmt.go lines 350 to 356). -/
def RunningGo (listRes : Except String (List VMState)) (name : String) :
    Except String Bool :=
  match StateGo listRes name with
  | .error e => .error ("failed to get VM state: " ++ e)
  | .ok s => .ok (s.State = "running")

/-- Model of Stopped (mgmt.go lines 359 to 365). -/
def StoppedGo (listRes : Except String (List VMState)) (name : String) :
    Except String Bool :=
  match StateGo listRes name with
  | .error e => .error ("failed to get VM state: " ++ e)
  | .ok s => .ok (s.State = "stopped")

/-- Model of Suspended (mgmt.go lines 368 to 374). -/
def SuspendedGo (listRes : Except String (List VMState)) (name : String) :
    Except String Bool :=
  match StateGo listRes name with
  | .error e => .error ("failed to get VM state: " ++ e)
  | .ok s => .ok (s.State = "suspended")

/-- Helper: a name absent from the list makes the lookup return the
zero value. -/
theorem stateOf_not_mem (vms : List VMState) (name : String)
    (h : name ∉ vms.map VMState.Name) : stateOf vms name = zeroVM := by
  induction vms with
  | nil => rfl
  | cons v rest ih =>
    simp only [List.map_cons, List.mem_cons, not_or] at h
    have hne : ¬ v.Name = name := fun hv => h.1 hv.symm
    show (if v.Name = name then v else stateOf rest name) = zeroVM
    rw [if_neg hne]
    exact ih h.2

/-- Helper: a name present in the list makes the lookup return a member
descriptor carrying exactly that name. -/
theorem stateOf_mem (vms : List VMState) (name : String)
    (h : name ∈ vms.map VMState.Name) :
    stateOf vms name ∈ vms ∧ (stateOf vms name).Name = name := by
  induction vms with
  | nil => simp at h
  | cons v rest ih =>
    by_cases hv : v.Name = name
    · simp [stateOf, hv]
    · simp only [List.map_cons, List.mem_cons] at h
      rcases h with h | h
      · exact absurd h.symm hv
      · have := ih h
        simp only [stateOf, if_neg hv]
        exact ⟨List.mem_cons_of_mem v this.1, this.2⟩

/-- C9: when the List invocation succeeds and no listed descriptor has
the requested name, State returns the zero-valued VMState (empty Name,
empty State, zero sizes) with no error rather than a not-found error,
and consequently Running, Stopped and Suspended all report false, so
callers can distinguish a missing VM only through the fields of the
returned zero value. -/
theorem c9_state_zero_value (vms : List VMState) (name : String)
    (h : name ∉ vms.map VMState.Name) :
    StateGo (.ok vms) name = .ok zeroVM ∧
    zeroVM.Name = "" ∧ zeroVM.State = "" ∧
    RunningGo (.ok vms) name = .ok false ∧
    StoppedGo (.ok vms) name = .ok false ∧
    SuspendedGo (.ok vms) name = .ok false := by
  have hz := stateOf_not_mem vms name h
  refine ⟨by simp [StateGo, hz], rfl, rfl, ?_, ?_, ?_⟩ <;>
    simp [RunningGo, StoppedGo, SuspendedGo, StateGo, hz, zeroVM]

/-- C9 witness: a one-element list not containing the requested name. -/
theorem c9_witness :
    StateGo (.ok [⟨1, 2, "other", "local", 3, "running"⟩]) "ghost" =
      .ok zeroVM ∧
    RunningGo (.ok [⟨1, 2, "other", "local", 3, "running"⟩]) "ghost" =
      .ok false := by
  have h := c9_state_zero_value [⟨1, 2, "other", "local", 3, "running"⟩]
    "ghost" (by decide)
  exact ⟨h.1, h.2.2.2.1⟩

/-! ## Invocation builders (run.go and mgmt.go) -/

/-- RunOptions of run.go, fields in source order. -/
structure RunOptions where
  NoGraphics : Bool
  Serial : Bool
  SerialPath : String
  NoAudio : Bool
  NoClipboard : Bool
  Recovery : Bool
  VNC : Bool
  VNCExperimental : Bool
  Disk : List String
  Rosetta : String
  Dir : List DirMount
  NetBridged : String
  NetSoftnet : Bool
  NetSoftnetAllow : String
  NetHost : Bool
  RootDiskOpts : String
  Suspendable : Bool
  CaptureSystemKeys : Bool
deriving DecidableEq, Repr

/-- RunOptions with every field at its zero value. -/
def noRunOptions : RunOptions :=
  ⟨false, false, "", false, false, false, false, false, [], "", [], "",
    false, "", false, "", false, false⟩

/-- Argument list built by Run (run.go lines 55 to 130): the run verb,
the flags in declared order, each disk and dir producing one flag
occurrence, and the VM name appended last. -/
def buildRunArgs (name : String) (o : RunOptions) : List String :=
  let args := ["run"]
  let args := if o.NoGraphics = true then args ++ ["--no-graphics"] else args
  let args := if o.Serial = true then args ++ ["--serial"] else args
  let args := if o.SerialPath ≠ "" then args ++ ["--serial-path", o.SerialPath] else args
  let args := if o.NoAudio = true then args ++ ["--no-audio"] else args
  let args := if o.NoClipboard = true then args ++ ["--no-clipboard"] else args
  let args := if o.Recovery = true then args ++ ["--recovery"] else args
  let args := if o.VNC = true then args ++ ["--vnc"] else args
  let args := if o.VNCExperimental = true then args ++ ["--vnc-experimental"] else args
  let args := o.Disk.foldl (fun a d => a ++ ["--disk", d]) args
  let args := if o.Rosetta ≠ "" then args ++ ["--rosetta", o.Rosetta] else args
  let args := o.Dir.foldl (fun a d => a ++ ["--dir", dirMountArg d]) args
  let args := if o.NetBridged ≠ "" then args ++ ["--net-bridged", o.NetBridged] else args
  let args := if o.NetSoftnet = true then args ++ ["--net-softnet"] else args
  let args := if o.NetSoftnetAllow ≠ "" then args ++ ["--net-softnet-allow", o.NetSoftnetAllow] else args
  let args := if o.NetHost = true then args ++ ["--net-host"] else args
  let args := if o.RootDiskOpts ≠ "" then args ++ ["--root-disk-opts", o.RootDiskOpts] else args
  let args := if o.Suspendable = true then args ++ ["--suspendable"] else args
  let args := if o.CaptureSystemKeys = true then args ++ ["--capture-system-keys"] else args
  args ++ [name]

/-- CreateOptions of mgmt.go. -/
structure CreateOptions where
  FromIPSW : String
  Linux : Bool
  DiskSize : Int
deriving DecidableEq, Repr

/-- Argument list built by Create (mgmt.go lines 88 to 97): the name
comes right after the verb, flags follow. -/
def buildCreateArgs (name : String) (o : CreateOptions) : List String :=
  let args := ["create", name]
  let args := if o.FromIPSW ≠ "" then args ++ ["--from-ipsw", o.FromIPSW] else args
  let args := if o.Linux = true then args ++ ["--linux"] else args
  if o.DiskSize > 0 then args ++ ["--disk-size", toString o.DiskSize] else args

/-- CloneOptions of mgmt.go (the NewName field is never read by Clone). -/
structure CloneOptions where
  NewName : String
  Insecure : Bool
  Concurrency : Int
deriving DecidableEq, Repr

/-- Argument list built by Clone (mgmt.go lines 125 to 131): source and
new name come right after the verb, flags follow. -/
def buildCloneArgs (sourceName newName : String) (o : CloneOptions) :
    List String :=
  let args := ["clone", sourceName, newName]
  let args := if o.Insecure = true then args ++ ["--insecure"] else args
  if o.Concurrency > 0 then args ++ ["--concurrency", toString o.Concurrency] else args

/-- Argument list built by Stop (mgmt.go lines 190 to 194): the name
comes right after the verb, the timeout flag follows. -/
def buildStopArgs (name : String) (timeout : Int) : List String :=
  let args := ["stop", name]
  if timeout > 0 then args ++ ["--timeout", toString timeout] else args

/-- Helper: the last element of a list extended by one element. -/
theorem lastOfAppendSingle {α : Type} (l : List α) (a : α) :
    (l ++ [a]).getLast? = some a := by
  induction l with
  | nil => rfl
  | cons x xs ih =>
    rw [List.cons_append, List.getLast?_cons, ih]
    rfl

/-- C6 counterexample: Stop with a positive timeout puts the timeout
value last, not the VM name, so the claim that the subject name is the
last element for Stop (and the other flagged single-object commands) is
false on the code. -/
theorem c6_counterexample :
    buildStopArgs "vm" 5 = ["stop", "vm", "--timeout", "5"] ∧
    (buildStopArgs "vm" 5).getLast? = some "5" ∧
    (buildStopArgs "vm" 5).getLast? ≠ some "vm" := by
  refine ⟨rfl, rfl, by decide⟩

/-- C6 amended: only Run appends the subject name as the last element
after all flags; Create, Clone and Stop place the subject names
immediately after the subcommand verb (index 1, and index 2 for the
clone target), before any flags. -/
theorem c6_subject_position_amended (name src dst : String)
    (ro : RunOptions) (co : CreateOptions) (lo : CloneOptions)
    (timeout : Int) :
    (buildRunArgs name ro).getLast? = some name ∧
    (buildCreateArgs name co)[1]? = some name ∧
    (buildCloneArgs src dst lo)[1]? = some src ∧
    (buildCloneArgs src dst lo)[2]? = some dst ∧
    (buildStopArgs name timeout)[1]? = some name := by
  refine ⟨?_, ?_, ?_, ?_, ?_⟩
  · simp only [buildRunArgs]
    exact lastOfAppendSingle _ name
  · simp only [buildCreateArgs]
    split <;> split <;> split <;> rfl
  · simp only [buildCloneArgs]
    split <;> split <;> rfl
  · simp only [buildCloneArgs]
    split <;> split <;> rfl
  · simp only [buildStopArgs]
    split <;> rfl

/-! ## Precondition phases of Run, Create and Clone (C4) -/

/-- Phases Run can reach before or at the point of spawning its own
subprocess (run.go lines 44 to 132): a failed state query, the two
precondition failures, or the spawn of the built argument list. -/
inductive RunPhase where
  | stateFailed (e : String)
  | alreadyRunning
  | doesNotExist (name : String)
  | spawn (args : List String)
deriving DecidableEq, Repr

/-- Model of the precondition section of Run (run.go lines 44 to 54)
followed by the argument build and spawn: the checks run strictly
before any subprocess of the operation is created. -/
def runPhase (listRes : Except String (List VMState)) (name : String)
    (o : RunOptions) : RunPhase :=
  match listRes with
  | .error e => .stateFailed e
  | .ok vms =>
    let s := stateOf vms name
    if s.State = "running" then .alreadyRunning
    else if s.Name ≠ name then .doesNotExist name
    else .spawn (buildRunArgs name o)

/-- Phases Create and Clone can reach before or at the point of
spawning (mgmt.go lines 77 to 98 and 114 to 132). -/
inductive MgmtPhase where
  | listFailed (e : String)
  | alreadyExists (name : String)
  | spawn (args : List String)
deriving DecidableEq, Repr

/-- Model of Create up to its spawn: the duplicate-name scan runs
before the create subprocess is created. -/
def createPhase (listRes : Except String (List VMState)) (name : String)
    (o : CreateOptions) : MgmtPhase :=
  match listRes with
  | .error e => .listFailed e
  | .ok vms =>
    if vms.any (fun v => v.Name = name) then .alreadyExists name
    else .spawn (buildCreateArgs name o)

/-- Model of Clone up to its spawn: the duplicate scan checks the new
name before the clone subprocess is created. -/
def clonePhase (listRes : Except String (List VMState))
    (sourceName newName : String) (o : CloneOptions) : MgmtPhase :=
  match listRes with
  | .error e => .listFailed e
  | .ok vms =>
    if vms.any (fun v => v.Name = newName) then .alreadyExists newName
    else .spawn (buildCloneArgs sourceName newName o)

/-- C4 counterexample: with the empty VM name and an empty VM list, no
VM of that name exists, yet Run does not fail with a does-not-exist
error: the zero-valued state carries an empty Name that matches the
empty request, so Run proceeds to spawn. The claim as stated is false
for the empty name. -/
theorem c4_counterexample :
    "" ∉ ([] : List VMState).map VMState.Name ∧
    runPhase (.ok []) "" noRunOptions = .spawn ["run", ""] ∧
    RunPhase.spawn ["run", ""] ≠ RunPhase.doesNotExist "" ∧
    RunPhase.spawn ["run", ""] ≠ RunPhase.alreadyRunning := by
  refine ⟨by simp, rfl, by simp, by simp⟩

/-- C4 amended: every precondition failure is detected before the
phase that spawns the operation subprocess, which is therefore never
reached on failure: Run reports already-running whenever some listed
descriptor carries the requested name and every such descriptor is in
state running; Run reports does-not-exist whenever the requested name
is non-empty and absent from the list (for the empty name the
zero-valued lookup result defeats the existence check, as the
counterexample shows); Create and Clone report already-exists whenever
the target name is present in the list. -/
theorem c4_preconditions_amended :
    (∀ vms name o, name ∈ vms.map VMState.Name →
      (∀ v ∈ vms, v.Name = name → v.State = "running") →
      runPhase (.ok vms) name o = .alreadyRunning) ∧
    (∀ vms name o, name ≠ "" → name ∉ vms.map VMState.Name →
      runPhase (.ok vms) name o = .doesNotExist name) ∧
    (∀ vms name o, name ∈ vms.map VMState.Name →
      createPhase (.ok vms) name o = .alreadyExists name) ∧
    (∀ vms src dst o, dst ∈ vms.map VMState.Name →
      clonePhase (.ok vms) src dst o = .alreadyExists dst) ∧
    (∀ args n, RunPhase.alreadyRunning ≠ RunPhase.spawn args ∧
      RunPhase.doesNotExist n ≠ RunPhase.spawn args ∧
      MgmtPhase.alreadyExists n ≠ MgmtPhase.spawn args) := by
  refine ⟨?_, ?_, ?_, ?_, fun args n => ⟨by simp, by simp, by simp⟩⟩
  · intro vms name o hmem hall
    obtain ⟨hin, hname⟩ := stateOf_mem vms name hmem
    have hrun : (stateOf vms name).State = "running" := hall _ hin hname
    simp [runPhase, hrun]
  · intro vms name o hne hmem
    have hz := stateOf_not_mem vms name hmem
    simp [runPhase, hz, zeroVM, Ne.symm hne]
  · intro vms name o hmem
    have : vms.any (fun v => v.Name = name) = true := by
      simp only [List.mem_map] at hmem
      obtain ⟨v, hv, hvn⟩ := hmem
      exact List.any_eq_true.2 ⟨v, hv, by simp [hvn]⟩
    simp [createPhase, this]
  · intro vms src dst o hmem
    have : vms.any (fun v => v.Name = dst) = true := by
      simp only [List.mem_map] at hmem
      obtain ⟨v, hv, hvn⟩ := hmem
      exact List.any_eq_true.2 ⟨v, hv, by simp [hvn]⟩
    simp [clonePhase, this]

/-- C4 witness: concrete evaluations of the three amended precondition
failures. -/
theorem c4_witness :
    runPhase (.ok [⟨1, 2, "vm", "local", 3, "running"⟩]) "vm" noRunOptions =
      .alreadyRunning ∧
    runPhase (.ok [⟨1, 2, "vm", "local", 3, "stopped"⟩]) "ghost" noRunOptions =
      .doesNotExist "ghost" ∧
    createPhase (.ok [⟨1, 2, "vm", "local", 3, "stopped"⟩]) "vm"
      ⟨"", false, 0⟩ = .alreadyExists "vm" ∧
    clonePhase (.ok [⟨1, 2, "vm", "local", 3, "stopped"⟩]) "src" "vm"
      ⟨"", false, 0⟩ = .alreadyExists "vm" := by
  refine ⟨?_, ?_, ?_, ?_⟩
  · exact c4_preconditions_amended.1 [⟨1, 2, "vm", "local", 3, "running"⟩]
      "vm" noRunOptions (by decide) (by decide)
  · exact c4_preconditions_amended.2.1 [⟨1, 2, "vm", "local", 3, "stopped"⟩]
      "ghost" noRunOptions (by decide) (by decide)
  · exact c4_preconditions_amended.2.2.1 [⟨1, 2, "vm", "local", 3, "stopped"⟩]
      "vm" ⟨"", false, 0⟩ (by decide)
  · exact c4_preconditions_amended.2.2.2.1 [⟨1, 2, "vm", "local", 3, "stopped"⟩]
      "src" "vm" ⟨"", false, 0⟩ (by decide)

/-! ## Plain-text result decoders (mgmt.go): IP and GetConfig -/

/-- Model of the result handling of IP (mgmt.go lines 328 to 332): a
run failure is wrapped, a captured stdout is returned trimmed of
surrounding whitespace. -/
def IPGo (runRes : Except RunError String) : Except String String :=
  match runRes with
  | .error _ => .error "failed to get VM IP"
  | .ok out => .ok (trimSpace out)

/-- Model of the result handling of GetConfig (mgmt.go lines 51 to 55):
a run failure is wrapped, a captured stdout is returned as-is, with no
trimming. -/
def GetConfigGo (runRes : Except RunError String) : Except String String :=
  match runRes with
  | .error _ => .error "failed to get VM configuration"
  | .ok out => .ok out

/-- C7 counterexample: GetConfig returns the captured stdout with its
surrounding whitespace intact, so the claim that both plain-text
queries trim surrounding whitespace is false on the code. -/
theorem c7_counterexample :
    GetConfigGo (.ok " cfg \n") = .ok " cfg \n" ∧
    trimSpace " cfg \n" = "cfg" ∧
    " cfg \n" ≠ trimSpace " cfg \n" := by
  refine ⟨rfl, by decide, by decide⟩

/-- C7 amended: on success IP returns the captured stdout with
surrounding whitespace trimmed and GetConfig returns the captured
stdout unchanged. -/
theorem c7_trim_amended (s : String) :
    IPGo (.ok s) = .ok (trimSpace s) ∧
    GetConfigGo (.ok s) = .ok s := by
  exact ⟨rfl, rfl⟩

/-! ## Structured decode of List (mgmt.go lines 280 to 299)

The decode step is json.Unmarshal of the captured stdout into a slice
of VMState. The payload is modelled as a JSON syntax tree; numbers are
rationals so that non-integral numbers are representable. The decoder
follows the documented Go semantics that the code relies on: a null
payload or a null element is a no-op (leaving the nil slice or the zero
record), object keys are matched by their tag, unknown keys are
ignored, missing keys leave the zero value, an int field accepts
exactly the integral numbers in 64-bit range, and every other shape
mismatch is an error. The custom UnmarshalJSON of VMState delegates to
the default struct decoding through an alias type, so it adds nothing.
-/

/-- JSON syntax tree of a decoded payload. -/
inductive Json where
  | null
  | bool (b : Bool)
  | num (q : ℚ)
  | str (s : String)
  | arr (elems : List Json)
  | obj (fields : List (String × Json))

/-- Test for the array shape of a payload. -/
def isJsonArr : Json → Bool
  | .arr _ => true
  | _ => false

/-- Decode one JSON value into a Go int field holding `cur`: null is a
no-op, an integral in-range number is taken verbatim, anything else is
an error. -/
def setIntField (j : Json) (cur : Int) : Except String Int :=
  match j with
  | .null => .ok cur
  | .num q =>
    if q.den = 1 ∧ -(2 ^ 63) ≤ q.num ∧ q.num < 2 ^ 63 then .ok q.num
    else .error "json: cannot unmarshal number into field of type int"
  | _ => .error "json: cannot unmarshal value into field of type int"

/-- Decode one JSON value into a Go string field holding `cur`: null is
a no-op, a string is taken verbatim, anything else is an error. -/
def setStrField (j : Json) (cur : String) : Except String String :=
  match j with
  | .null => .ok cur
  | .str s => .ok s
  | _ => .error "json: cannot unmarshal value into field of type string"

/-- Assign one decoded object key to the VMState under construction,
matching the JSON tags of mgmt.go; unknown keys are ignored. -/
def setVMField (v : VMState) (kv : String × Json) : Except String VMState :=
  if kv.1 = "sizeOnDisk" then
    (setIntField kv.2 v.SizeOnDisk).map (fun n => { v with SizeOnDisk := n })
  else if kv.1 = "disk" then
    (setIntField kv.2 v.Disk).map (fun n => { v with Disk := n })
  else if kv.1 = "name" then
    (setStrField kv.2 v.Name).map (fun s => { v with Name := s })
  else if kv.1 = "source" then
    (setStrField kv.2 v.Source).map (fun s => { v with Source := s })
  else if kv.1 = "size" then
    (setIntField kv.2 v.Size).map (fun n => { v with Size := n })
  else if kv.1 = "state" then
    (setStrField kv.2 v.State).map (fun s => { v with State := s })
  else .ok v

/-- Decode one array element into a VMState: an object assigns its keys
in order onto the zero record, null is a no-op on the zero record,
anything else is an error. -/
def decodeVMState : Json → Except String VMState
  | .null => .ok zeroVM
  | .obj fields => fields.foldlM setVMField zeroVM
  | _ => .error "json: cannot unmarshal value into VMState"

/-- Decode the elements of an array payload in order, stopping at the
first failing element. -/
def decodeVMElems : List Json → Except String (List VMState)
  | [] => .ok []
  | j :: js =>
    match decodeVMState j with
    | .error e => .error e
    | .ok v =>
      match decodeVMElems js with
      | .error e => .error e
      | .ok vs => .ok (v :: vs)

/-- Decode the whole payload into the slice of VMState: an array
decodes its elements in order, null leaves the nil slice with no
error, anything else is an error. -/
def unmarshalVMList : Json → Except String (List VMState)
  | .null => .ok []
  | .arr es => decodeVMElems es
  | _ => .error "json: cannot unmarshal value into slice of VMState"

/-- A full six-key descriptor record as emitted by the external tool. -/
structure VMRec where
  sizeOnDisk : Int
  disk : Int
  name : String
  source : String
  size : Int
  state : String
deriving DecidableEq, Repr

/-- The JSON object of a descriptor record, keys in schema order. -/
def VMRec.json (r : VMRec) : Json :=
  .obj [("sizeOnDisk", .num r.sizeOnDisk), ("disk", .num r.disk),
    ("name", .str r.name), ("source", .str r.source),
    ("size", .num r.size), ("state", .str r.state)]

/-- The VMState a record should decode to, fields preserved verbatim. -/
def VMRec.vm (r : VMRec) : VMState :=
  ⟨r.sizeOnDisk, r.disk, r.name, r.source, r.size, r.state⟩

/-- A record is bounded when its numeric fields fit a 64-bit int. -/
def VMRec.bounded (r : VMRec) : Prop :=
  (-(2 ^ 63) ≤ r.sizeOnDisk ∧ r.sizeOnDisk < 2 ^ 63) ∧
  (-(2 ^ 63) ≤ r.disk ∧ r.disk < 2 ^ 63) ∧
  (-(2 ^ 63) ≤ r.size ∧ r.size < 2 ^ 63)

/-- Helper: one bounded record decodes to exactly its VMState. -/
theorem decode_record (r : VMRec) (h : r.bounded) :
    decodeVMState r.json = .ok r.vm := by
  obtain ⟨⟨ha1, ha2⟩, ⟨hb1, hb2⟩, ⟨hc1, hc2⟩⟩ := h
  norm_num at ha1 ha2 hb1 hb2 hc1 hc2
  simp [decodeVMState, VMRec.json, VMRec.vm, setVMField, setIntField,
    setStrField, zeroVM, List.foldlM_cons, List.foldlM_nil,
    Rat.den_intCast, Rat.num_intCast, ha1, ha2, hb1, hb2, hc1, hc2]
  rfl

/-- Helper: a list of bounded records decodes elementwise. -/
theorem decode_records (rs : List VMRec) (h : ∀ r ∈ rs, r.bounded) :
    decodeVMElems (rs.map VMRec.json) = .ok (rs.map VMRec.vm) := by
  induction rs with
  | nil => rfl
  | cons r rs ih =>
    have hr := decode_record r (h r (by simp))
    have ihh := ih (fun x hx => h x (by simp [hx]))
    simp [decodeVMElems, hr, ihh]

/-- C8 counterexample: the JSON literal null is not an array of
descriptor records, yet the decode step returns an empty sequence with
no error, so the claim that a malformed payload always produces a
decode error and never silently an empty sequence is false on the
code. -/
theorem c8_counterexample :
    unmarshalVMList Json.null = .ok [] ∧
    isJsonArr Json.null = false := by
  exact ⟨rfl, rfl⟩

/-- C8 amended: a well-formed JSON array of K descriptor records whose
numeric fields fit a 64-bit int decodes to exactly K VMState values
with every field preserved verbatim; a payload that is neither an array
nor the literal null fails with a decode error; the literal null is the
one silent shape: Go unmarshals it as a no-op, so List returns an empty
sequence with no error. -/
theorem c8_list_decode_amended :
    (∀ rs : List VMRec, (∀ r ∈ rs, r.bounded) →
      unmarshalVMList (Json.arr (rs.map VMRec.json)) = .ok (rs.map VMRec.vm) ∧
      (rs.map VMRec.vm).length = rs.length) ∧
    unmarshalVMList Json.null = .ok [] ∧
    (∀ j, isJsonArr j = false → j ≠ Json.null →
      ∃ e, unmarshalVMList j = .error e) := by
  refine ⟨?_, rfl, ?_⟩
  · intro rs h
    exact ⟨decode_records rs h, by simp⟩
  · intro j hj hn
    cases j with
    | null => exact absurd rfl hn
    | arr es => exact absurd hj (by simp [isJsonArr])
    | bool b => exact ⟨_, rfl⟩
    | num q => exact ⟨_, rfl⟩
    | str s => exact ⟨_, rfl⟩
    | obj fs => exact ⟨_, rfl⟩

/-- C8 witness: a concrete two-record array decodes to the two
descriptors verbatim, and a non-array payload fails. -/
theorem c8_witness :
    unmarshalVMList (Json.arr [(VMRec.mk 1 2 "vm" "local" 3 "running").json,
      (VMRec.mk 40 50 "other" "remote" 60 "stopped").json]) =
      .ok [⟨1, 2, "vm", "local", 3, "running"⟩,
        ⟨40, 50, "other", "remote", 60, "stopped"⟩] ∧
    ∃ e, unmarshalVMList (Json.str "garbled") = .error e := by
  constructor
  · exact (c8_list_decode_amended.1
      [VMRec.mk 1 2 "vm" "local" 3 "running",
        VMRec.mk 40 50 "other" "remote" 60 "stopped"]
      (by intro r hr; simp [VMRec.bounded] at hr ⊢; rcases hr with h | h <;>
        subst h <;> refine ⟨⟨?_, ?_⟩, ⟨?_, ?_⟩, ?_, ?_⟩ <;> decide)).1
  · exact c8_list_decode_amended.2.2 (Json.str "garbled") rfl (by simp)
